import Mathlib

/-!
Verification of the `walk-the-dog` game core (src/game.rs): the character's
motion context and typed state machine, per-tick physics integration, the
per-tick collision resolution, the parallax background wrap and the
initialization entry point.

Machine integers (`i16`, `u8`) are modelled as `Int` / `Nat`: every value the
claims touch is far from the overflow boundaries, so two's-complement wrap
never fires on the inputs considered here.
-/

namespace WalkDog

/-- engine::Point — integer 2D coordinate used for positions and velocities. -/
structure Point where
  x : Int
  y : Int
deriving DecidableEq, Repr

/-- engine::Rect — axis-aligned box. -/
structure Rect where
  x : Int
  y : Int
  width : Int
  height : Int
deriving DecidableEq, Repr

/-- Modelled from the spec: engine::Rect::right (engine.rs is not in the
sources); the right edge of the box. -/
def Rect.right (r : Rect) : Int := r.x + r.width

/-- Modelled from the spec: engine::Rect::bottom; the bottom edge of the box. -/
def Rect.bottom (r : Rect) : Int := r.y + r.height

/-- Modelled from the spec: engine::Rect::intersects — the standard AABB
overlap test with strict inequalities, so exactly touching edges do not count
as an overlap. -/
def Rect.intersects (a b : Rect) : Prop :=
  a.x < b.right ∧ a.right > b.x ∧ a.y < b.bottom ∧ a.bottom > b.y

instance (a b : Rect) : Decidable (a.intersects b) := by
  unfold Rect.intersects; infer_instance

/-- game.rs: `const HEIGHT: i16 = 600`. -/
def HEIGHT : Int := 600

/-- red_hat_boy_states: `const FLOOR: i16 = 479`. -/
def FLOOR : Int := 479

/-- red_hat_boy_states: `const PLAYER_HEIGHT: i16 = HEIGHT - FLOOR`. -/
def PLAYER_HEIGHT : Int := HEIGHT - FLOOR

/-- red_hat_boy_states: `const STARTING_POINT: i16 = -20`. -/
def STARTING_POINT : Int := -20

/-- red_hat_boy_states: `const IDLE_FRAMES: u8 = 29`. -/
def IDLE_FRAMES : Nat := 29

/-- red_hat_boy_states: `const RUNNING_FRAMES: u8 = 23`. -/
def RUNNING_FRAMES : Nat := 23

/-- red_hat_boy_states: `const RUNNING_SPEED: i16 = 4`. -/
def RUNNING_SPEED : Int := 4

/-- red_hat_boy_states: `const SLIDING_FRAMES: u8 = 14`. -/
def SLIDING_FRAMES : Nat := 14

/-- red_hat_boy_states: `const FALLING_FRAMES: u8 = 29`. -/
def FALLING_FRAMES : Nat := 29

/-- red_hat_boy_states: `const JUMPING_FRAMES: u8 = 12 * 3 - 1`. -/
def JUMPING_FRAMES : Nat := 12 * 3 - 1

/-- red_hat_boy_states: `const JUMP_SPEED: i16 = -25`. -/
def JUMP_SPEED : Int := -25

/-- red_hat_boy_states: `const GRAVITY: i16 = 1`. -/
def GRAVITY : Int := 1

/-- red_hat_boy_states: `const TERMINAL_VELOCITY: i16 = 20`. -/
def TERMINAL_VELOCITY : Int := 20

/-- red_hat_boy_states::RedHatBoyContext — frame counter, position, velocity. -/
structure RedHatBoyContext where
  frame : Nat
  position : Point
  velocity : Point
deriving DecidableEq, Repr

/-- RedHatBoyContext::update — gravity up to terminal velocity, frame
advance/wrap against `frame_count`, position integration, floor clamp. -/
def RedHatBoyContext.update (c : RedHatBoyContext) (frame_count : Nat) :
    RedHatBoyContext :=
  let vy := if c.velocity.y < TERMINAL_VELOCITY then c.velocity.y + GRAVITY
            else c.velocity.y
  let f := if c.frame < frame_count then c.frame + 1 else 0
  let py := c.position.y + vy
  let py := if py > FLOOR then FLOOR else py
  ⟨f, ⟨c.position.x, py⟩, ⟨c.velocity.x, vy⟩⟩

/-- RedHatBoyContext::reset_frame. -/
def RedHatBoyContext.reset_frame (c : RedHatBoyContext) : RedHatBoyContext :=
  ⟨0, c.position, c.velocity⟩

/-- RedHatBoyContext::run_right. -/
def RedHatBoyContext.run_right (c : RedHatBoyContext) : RedHatBoyContext :=
  ⟨c.frame, c.position, ⟨RUNNING_SPEED, c.velocity.y⟩⟩

/-- RedHatBoyContext::set_vertical_velocity. -/
def RedHatBoyContext.set_vertical_velocity (c : RedHatBoyContext) (y : Int) :
    RedHatBoyContext :=
  ⟨c.frame, c.position, ⟨c.velocity.x, y⟩⟩

/-- RedHatBoyContext::stop. -/
def RedHatBoyContext.stop (c : RedHatBoyContext) : RedHatBoyContext :=
  ⟨c.frame, c.position, ⟨0, 0⟩⟩

/-- RedHatBoyContext::set_on — rests the character's feet on `position` by
subtracting PLAYER_HEIGHT. -/
def RedHatBoyContext.set_on (c : RedHatBoyContext) (position : Int) :
    RedHatBoyContext :=
  ⟨c.frame, ⟨c.position.x, position - PLAYER_HEIGHT⟩, c.velocity⟩

/-- RedHatBoyState<Idle>::new — the initial context. -/
def initialContext : RedHatBoyContext :=
  ⟨0, ⟨STARTING_POINT, FLOOR⟩, ⟨0, 0⟩⟩

/-- RedHatBoyState<Idle>::run — context transform. -/
def idleRun (c : RedHatBoyContext) : RedHatBoyContext :=
  c.reset_frame.run_right

/-- RedHatBoyState<Running>::slide — context transform. -/
def runningSlide (c : RedHatBoyContext) : RedHatBoyContext :=
  c.reset_frame

/-- RedHatBoyState<Running>::jump — context transform. -/
def runningJump (c : RedHatBoyContext) : RedHatBoyContext :=
  (c.set_vertical_velocity JUMP_SPEED).reset_frame

/-- RedHatBoyState<Running>::land_on — context transform (no frame reset). -/
def runningLandOn (c : RedHatBoyContext) (position : Int) : RedHatBoyContext :=
  c.set_on position

/-- RedHatBoyState<Running>::knock_out — context transform. -/
def runningKnockOut (c : RedHatBoyContext) : RedHatBoyContext :=
  c.reset_frame.stop

/-- RedHatBoyState<Sliding>::stand — context transform. -/
def slidingStand (c : RedHatBoyContext) : RedHatBoyContext :=
  c.reset_frame

/-- RedHatBoyState<Sliding>::land_on — context transform (no frame reset). -/
def slidingLandOn (c : RedHatBoyContext) (position : Int) : RedHatBoyContext :=
  c.set_on position

/-- RedHatBoyState<Sliding>::knock_out — context transform. -/
def slidingKnockOut (c : RedHatBoyContext) : RedHatBoyContext :=
  c.reset_frame.stop

/-- RedHatBoyState<Jumping>::land_on — context transform (frame reset, then
rest on the surface). -/
def jumpingLandOn (c : RedHatBoyContext) (position : Int) : RedHatBoyContext :=
  c.reset_frame.set_on position

/-- RedHatBoyState<Jumping>::knock_out — context transform. -/
def jumpingKnockOut (c : RedHatBoyContext) : RedHatBoyContext :=
  c.reset_frame.stop

/-- RedHatBoyState<Falling>::knock_out — context transform: the context is
carried over unchanged. -/
def fallingKnockOut (c : RedHatBoyContext) : RedHatBoyContext :=
  c

/-- red_hat_boy_states::SlidingEndState. -/
inductive SlidingEndState where
  | complete (c : RedHatBoyContext)
  | sliding (c : RedHatBoyContext)
deriving DecidableEq, Repr

/-- RedHatBoyState<Sliding>::update — advance the context; on frame wrap the
slide is complete and the character stands (back to Running). -/
def slidingUpdate (c : RedHatBoyContext) : SlidingEndState :=
  let c := c.update SLIDING_FRAMES
  if c.frame ≥ SLIDING_FRAMES then .complete (slidingStand c) else .sliding c

/-- red_hat_boy_states::JumpingEndState. -/
inductive JumpingEndState where
  | jumping (c : RedHatBoyContext)
  | landing (c : RedHatBoyContext)
deriving DecidableEq, Repr

/-- RedHatBoyState<Jumping>::update — integrate; once `position.y >= FLOOR`
land on `HEIGHT`. -/
def jumpingUpdate (c : RedHatBoyContext) : JumpingEndState :=
  let c := c.update JUMPING_FRAMES
  if c.position.y ≥ FLOOR then .landing (jumpingLandOn c HEIGHT)
  else .jumping c

/-- red_hat_boy_states::FallingEndState. -/
inductive FallingEndState where
  | falling (c : RedHatBoyContext)
  | knockedOut (c : RedHatBoyContext)
deriving DecidableEq, Repr

/-- RedHatBoyState<Falling>::update — advance the context; when the falling
animation completes, become KnockedOut. -/
def fallingUpdate (c : RedHatBoyContext) : FallingEndState :=
  let c := c.update FALLING_FRAMES
  if c.frame ≥ FALLING_FRAMES then .knockedOut (fallingKnockOut c)
  else .falling c

/-- RedHatBoyStateMachine — six mutually exclusive states, each carrying one
motion context. -/
inductive Machine where
  | idle (c : RedHatBoyContext)
  | running (c : RedHatBoyContext)
  | sliding (c : RedHatBoyContext)
  | jumping (c : RedHatBoyContext)
  | falling (c : RedHatBoyContext)
  | knockedOut (c : RedHatBoyContext)
deriving DecidableEq, Repr

/-- game::Event. -/
inductive Event where
  | run
  | slide
  | update
  | jump
  | knockOut
  | land (position : Int)
deriving DecidableEq, Repr

/-- RedHatBoyStateMachine::context. -/
def Machine.context : Machine → RedHatBoyContext
  | .idle c => c
  | .running c => c
  | .sliding c => c
  | .jumping c => c
  | .falling c => c
  | .knockedOut c => c

/-- From<SlidingEndState> for RedHatBoyStateMachine. -/
def fromSliding : SlidingEndState → Machine
  | .complete c => .running c
  | .sliding c => .sliding c

/-- From<JumpingEndState> for RedHatBoyStateMachine. -/
def fromJumping : JumpingEndState → Machine
  | .jumping c => .jumping c
  | .landing c => .running c

/-- From<FallingEndState> for RedHatBoyStateMachine. -/
def fromFalling : FallingEndState → Machine
  | .falling c => .falling c
  | .knockedOut c => .knockedOut c

/-- RedHatBoyStateMachine::transition — the dispatch table of game.rs lines
313–337; every pair not matched falls through to the wildcard and returns
`self` unchanged. -/
def Machine.transition (m : Machine) (e : Event) : Machine :=
  match m, e with
  | .idle c, .run => .running (idleRun c)
  | .running c, .slide => .sliding (runningSlide c)
  | .running c, .jump => .jumping (runningJump c)
  | .running c, .knockOut => .falling (runningKnockOut c)
  | .running c, .land position => .running (runningLandOn c position)
  | .idle c, .update => .idle (c.update IDLE_FRAMES)
  | .running c, .update => .running (c.update RUNNING_FRAMES)
  | .sliding c, .update => fromSliding (slidingUpdate c)
  | .falling c, .update => fromFalling (fallingUpdate c)
  | .sliding c, .knockOut => .falling (slidingKnockOut c)
  | .sliding c, .land position => .sliding (slidingLandOn c position)
  | .jumping c, .update => fromJumping (jumpingUpdate c)
  | .jumping c, .knockOut => .falling (jumpingKnockOut c)
  | .jumping c, .land position => .jumping (jumpingLandOn c position)
  | _, _ => m

/-- The initial machine: RedHatBoy::new starts Idle with the initial context. -/
def initialMachine : Machine := .idle initialContext

/-- The state variant alone, for stating which (state, event) pairs the
dispatch table enumerates. -/
inductive StateTag where
  | idle | running | sliding | jumping | falling | knockedOut
deriving DecidableEq, Repr

/-- The variant of a machine state. -/
def Machine.tag : Machine → StateTag
  | .idle _ => .idle
  | .running _ => .running
  | .sliding _ => .sliding
  | .jumping _ => .jumping
  | .falling _ => .falling
  | .knockedOut _ => .knockedOut

/-- The (state, event) pairs explicitly enumerated by the dispatch table of
`Machine.transition` (game.rs lines 315–334). -/
def enumeratedPair : StateTag → Event → Bool
  | .idle, .run => true
  | .running, .slide => true
  | .running, .jump => true
  | .running, .knockOut => true
  | .running, .land _ => true
  | .idle, .update => true
  | .running, .update => true
  | .sliding, .update => true
  | .falling, .update => true
  | .sliding, .knockOut => true
  | .sliding, .land _ => true
  | .jumping, .update => true
  | .jumping, .knockOut => true
  | .jumping, .land _ => true
  | _, _ => false

/-- The machine states reachable from the initial Idle state by any sequence
of `transition` events. -/
inductive Reachable : Machine → Prop where
  | init : Reachable initialMachine
  | step {m : Machine} (e : Event) : Reachable m → Reachable (m.transition e)

/-- Events whose Land payload does not exceed HEIGHT — the payloads the world
loop actually issues (platform sub-box y coordinates and the internal
`land_on(HEIGHT)`). -/
def EventOk : Event → Prop
  | .land position => position ≤ HEIGHT
  | _ => True

/-- Machine states reachable using only events satisfying `EventOk`. -/
inductive ReachableOk : Machine → Prop where
  | init : ReachableOk initialMachine
  | step {m : Machine} (e : Event) : EventOk e → ReachableOk m →
      ReachableOk (m.transition e)

/-- Iterated context integration with a fixed animation length. -/
def updateIter (frame_count : Nat) : Nat → RedHatBoyContext → RedHatBoyContext
  | 0, c => c
  | k + 1, c => (updateIter frame_count k c).update frame_count

/-- Repeatedly apply RedHatBoyState<Jumping>::update with the given fuel,
stopping as soon as the update lands. -/
def jrun : Nat → RedHatBoyContext → JumpingEndState
  | 0, c => .jumping c
  | n + 1, c =>
    match jumpingUpdate c with
    | .landing r => .landing r
    | .jumping c' => jrun n c'

/-- Modelled from the spec: engine::Image (engine.rs is not in the sources) —
a drawable with a position and a pixel width; only the horizontal data drives
the parallax wrap. -/
structure BgImage where
  position : Point
  width : Int
deriving DecidableEq, Repr

/-- Modelled from the spec: engine::Image::right — the layer's right edge. -/
def BgImage.right (i : BgImage) : Int := i.position.x + i.width

/-- Modelled from the spec: engine::Image::set_x. -/
def BgImage.setX (i : BgImage) (x : Int) : BgImage :=
  ⟨⟨x, i.position.y⟩, i.width⟩

/-- Modelled from the spec: engine::Image::move_horizontally. -/
def BgImage.moveH (i : BgImage) (d : Int) : BgImage :=
  ⟨⟨i.position.x + d, i.position.y⟩, i.width⟩

/-- The two parallax wrap checks in the program's order (game.rs lines
717–722): first background first, then the second background against the
possibly already repositioned first. -/
def wrapPair (fb sb : BgImage) : BgImage × BgImage :=
  let fb := if fb.right < 0 then fb.setX sb.right else fb
  let sb := if sb.right < 0 then sb.setX fb.right else sb
  (fb, sb)

/-- The same two wrap checks performed in the opposite order. -/
def wrapPairRev (fb sb : BgImage) : BgImage × BgImage :=
  let sb := if sb.right < 0 then sb.setX fb.right else sb
  let fb := if fb.right < 0 then fb.setX sb.right else fb
  (fb, sb)

/-- engine::Cell — an atlas entry: frame rectangle and sprite source offset
(the fields game.rs reads). -/
structure Cell where
  fx : Int
  fy : Int
  fw : Int
  fh : Int
  ssx : Int
  ssy : Int
deriving DecidableEq, Repr

/-- engine::load_image's result — an image handle whose pixel width sizes the
parallax layers. -/
structure HtmlImg where
  width : Int
deriving DecidableEq, Repr

/-- game::Platform — the sheet is collapsed to its `"13.png"` frame cell, the
only atlas entry the platform ever reads (the atlas lookup itself is an
external collaborator). -/
structure Platform where
  position : Point
  cell13 : Cell
  image : HtmlImg
deriving DecidableEq, Repr

/-- Platform::destination_box — position with width `frame.w * 3` and height
`frame.h`. -/
def Platform.destination_box (p : Platform) : Rect :=
  ⟨p.position.x, p.position.y, p.cell13.fw * 3, p.cell13.fh⟩

/-- Platform::bounding_boxes — left cap, middle span, right cap, with
`X_OFFSET = 60` and `END_HEIGHT = 54`. -/
def Platform.bounding_boxes (p : Platform) : List Rect :=
  let X_OFFSET : Int := 60
  let END_HEIGHT : Int := 54
  let destination_box := p.destination_box
  let bounding_box_one : Rect :=
    ⟨destination_box.x, destination_box.y, X_OFFSET, END_HEIGHT⟩
  let bounding_box_two : Rect :=
    ⟨destination_box.x + X_OFFSET, destination_box.y,
      destination_box.width - (X_OFFSET * 2), destination_box.height⟩
  let bounding_box_three : Rect :=
    ⟨destination_box.x + destination_box.width - X_OFFSET, destination_box.y,
      X_OFFSET, END_HEIGHT⟩
  [bounding_box_one, bounding_box_two, bounding_box_three]

/-- RedHatBoy::destination_box — boy position plus the sprite's source
offset, with the sprite frame's extent. -/
def boyDestinationBox (c : RedHatBoyContext) (sprite : Cell) : Rect :=
  ⟨c.position.x + sprite.ssx, c.position.y + sprite.ssy, sprite.fw, sprite.fh⟩

/-- RedHatBoy::bounding_box — the destination box shrunk by the fixed insets
`X_OFFSET = 18`, `Y_OFFSET = 14`, `WIDTH_OFFSET = 28`. -/
def boyBoundingBox (c : RedHatBoyContext) (sprite : Cell) : Rect :=
  let X_OFFSET : Int := 18
  let Y_OFFSET : Int := 14
  let WIDTH_OFFSET : Int := 28
  let b := boyDestinationBox c sprite
  ⟨b.x + X_OFFSET, b.y + Y_OFFSET, b.width - WIDTH_OFFSET, b.height - Y_OFFSET⟩

/-- The event the collision loop body issues for one platform sub-box, given
the boy's current bounding box, vertical velocity and y position and the
platform's reference y (game.rs lines 724–732): none when there is no
intersection, otherwise Land of the sub-box's y exactly when the boy moves
downward from above the platform, and KnockOut otherwise. -/
def collisionEvent (boyBox : Rect) (vy py platY : Int) (box : Rect) :
    Option Event :=
  if boyBox.intersects box then
    if vy > 0 ∧ py < platY then some (.land box.y) else some .knockOut
  else none

/-- One iteration of the platform collision loop: issue the decided event (if
any) to the state machine. `boyBB` recomputes the boy's bounding box from the
current machine state, as the source re-reads `walk.boy` each iteration. -/
def collideStep (boyBB : Machine → Rect) (platY : Int) (m : Machine)
    (box : Rect) : Machine :=
  match collisionEvent (boyBB m) m.context.velocity.y m.context.position.y
      platY box with
  | some e => m.transition e
  | none => m

/-- The whole platform collision loop over the three bounding sub-boxes. -/
def resolvePlatform (boyBB : Machine → Rect) (platY : Int) (boxes : List Rect)
    (m : Machine) : Machine :=
  boxes.foldl (collideStep boyBB platY) m

/-- game.rs: `const LOW_PLATFORM: i16 = 420`. -/
def LOW_PLATFORM : Int := 420

/-- game.rs: `const HIGH_PLATFORM: i16 = 375`. -/
def HIGH_PLATFORM : Int := 375

/-- game.rs: `const FIRST_PLATFORM: i16 = 370`. -/
def FIRST_PLATFORM : Int := 370

/-- engine::Sheet — the deserialized sprite atlas (frame name to cell). -/
structure Sheet where
  frames : List (String × Cell)
deriving DecidableEq, Repr

/-- game::RedHatBoy — the state machine together with its sprite sheet and
image. -/
structure RedHatBoy where
  state_machine : Machine
  sprite_sheet : Sheet
  image : HtmlImg
deriving DecidableEq, Repr

/-- game::Walk — the loaded world. -/
structure Walk where
  boy : RedHatBoy
  backgrounds : BgImage × BgImage
  stone : BgImage
  platform : Platform
deriving DecidableEq, Repr

/-- game::WalkTheDog — Loading until `initialize` succeeds, Loaded after. -/
inductive WalkTheDogS where
  | loading
  | loaded (walk : Walk)
deriving DecidableEq, Repr

/-- The errors `initialize` can return: a propagated asset-loading failure,
or the distinct `"Error: Game is already initialized!"` rejection. -/
inductive GameErr where
  | assetFailure (msg : String)
  | alreadyInitialized
deriving DecidableEq, Repr

/-- The outcomes of the asset fetches `initialize` performs, in source order:
rhb.json, tiles.json (collapsed to its 13.png cell), tiles.png, BG.png,
Stone.png, rhb.png. Each may fail with a message. -/
structure LoadResults where
  rhbSheet : Except String Sheet
  tilesSheet : Except String Cell
  tilesImg : Except String HtmlImg
  bgImg : Except String HtmlImg
  stoneImg : Except String HtmlImg
  rhbImg : Except String HtmlImg
deriving Repr

/-- WalkTheDog::initialize — in Loading, thread the asset loads (any failure
propagates) and construct the Loaded world; in Loaded, reject with the
distinct already-initialized error without touching the existing world. -/
def initializeGame (g : WalkTheDogS) (r : LoadResults) :
    Except GameErr WalkTheDogS :=
  match g with
  | .loading => do
    let sheet ← r.rhbSheet.mapError .assetFailure
    let platformSheet ← r.tilesSheet.mapError .assetFailure
    let tilesImage ← r.tilesImg.mapError .assetFailure
    let platform : Platform :=
      ⟨⟨FIRST_PLATFORM, LOW_PLATFORM⟩, platformSheet, tilesImage⟩
    let background ← r.bgImg.mapError .assetFailure
    let stone ← r.stoneImg.mapError .assetFailure
    let image ← r.rhbImg.mapError .assetFailure
    let rhb : RedHatBoy := ⟨initialMachine, sheet, image⟩
    let background_width := background.width
    .ok (.loaded
      ⟨rhb,
        (⟨⟨0, 0⟩, background.width⟩, ⟨⟨background_width, 0⟩, background.width⟩),
        ⟨⟨150, 546⟩, stone.width⟩,
        platform⟩)
  | .loaded _ => .error .alreadyInitialized

/-! Helper lemmas about the context integration. -/

theorem update_velocity_x (c : RedHatBoyContext) (fc : Nat) :
    (c.update fc).velocity.x = c.velocity.x := rfl

theorem update_velocity_y (c : RedHatBoyContext) (fc : Nat) :
    (c.update fc).velocity.y =
      if c.velocity.y < TERMINAL_VELOCITY then c.velocity.y + GRAVITY
      else c.velocity.y := rfl

theorem update_position_x (c : RedHatBoyContext) (fc : Nat) :
    (c.update fc).position.x = c.position.x := rfl

theorem update_position_y (c : RedHatBoyContext) (fc : Nat) :
    (c.update fc).position.y =
      if c.position.y +
          (if c.velocity.y < TERMINAL_VELOCITY then c.velocity.y + GRAVITY
           else c.velocity.y) > FLOOR then FLOOR
      else c.position.y +
          (if c.velocity.y < TERMINAL_VELOCITY then c.velocity.y + GRAVITY
           else c.velocity.y) := rfl

theorem update_position_y_le (c : RedHatBoyContext) (fc : Nat) :
    (c.update fc).position.y ≤ FLOOR := by
  rw [update_position_y]
  simp only [FLOOR]
  split_ifs <;> omega

theorem update_velocity_y_le (c : RedHatBoyContext) (fc : Nat)
    (h : c.velocity.y ≤ TERMINAL_VELOCITY) :
    (c.update fc).velocity.y ≤ TERMINAL_VELOCITY := by
  rw [update_velocity_y]
  simp only [TERMINAL_VELOCITY, GRAVITY] at *
  split_ifs <;> omega

/-- Claim C10: the platform publishes exactly three sub-boxes that tile its
destination box horizontally with no gap or overlap — a 60×54 left cap at the
destination's origin, a middle span of width `destination width - 120` at
full destination height starting 60 in, and a 60×54 right cap ending exactly
at the destination's right edge. -/
theorem platform_bounding_boxes_tile (p : Platform) :
    ∃ b1 b2 b3, p.bounding_boxes = [b1, b2, b3]
      ∧ b1.x = p.destination_box.x ∧ b1.y = p.destination_box.y
      ∧ b1.width = 60 ∧ b1.height = 54
      ∧ b2.x = p.destination_box.x + 60 ∧ b2.y = p.destination_box.y
      ∧ b2.width = p.destination_box.width - 120
      ∧ b2.height = p.destination_box.height
      ∧ b3.y = p.destination_box.y ∧ b3.width = 60 ∧ b3.height = 54
      ∧ b2.x = b1.x + b1.width
      ∧ b3.x = b2.x + b2.width
      ∧ b3.x + b3.width = p.destination_box.right := by
  refine ⟨_, _, _, rfl, ?_⟩
  simp only [Platform.bounding_boxes, Platform.destination_box, Rect.right]
  norm_num
  ring

/-- Claim C8 counterexample: the Running × Land transition does not reset the
animation frame — at frame 5 the landed state still has frame 5. -/
theorem land_keeps_frame_cex :
    ((Machine.running ⟨5, ⟨0, 479⟩, ⟨4, 0⟩⟩).transition
        (.land 600)).context.frame ≠ 0 := by decide

/-- Claim C8 (amended): the transitions that apply `reset_frame` — Run from
Idle, Slide/Jump/KnockOut from Running, KnockOut from Sliding and Jumping,
the stand at the end of a slide, and Land while Jumping — all produce frame
0; Land while Running or Sliding and the Falling knock-out carry the frame
over unchanged. -/
theorem transition_frame_reset (c : RedHatBoyContext) (p : Int) :
    ((Machine.idle c).transition .run).context.frame = 0
  ∧ ((Machine.running c).transition .slide).context.frame = 0
  ∧ ((Machine.running c).transition .jump).context.frame = 0
  ∧ ((Machine.running c).transition .knockOut).context.frame = 0
  ∧ ((Machine.sliding c).transition .knockOut).context.frame = 0
  ∧ ((Machine.jumping c).transition .knockOut).context.frame = 0
  ∧ ((Machine.jumping c).transition (.land p)).context.frame = 0
  ∧ (slidingStand c).frame = 0
  ∧ ((Machine.running c).transition (.land p)).context.frame = c.frame
  ∧ ((Machine.sliding c).transition (.land p)).context.frame = c.frame
  ∧ (fallingKnockOut c).frame = c.frame :=
  ⟨rfl, rfl, rfl, rfl, rfl, rfl, rfl, rfl, rfl, rfl, rfl⟩

/-- Claim C2: every (state, event) pair not enumerated in the dispatch table
is a silent no-op returning the identical machine, and from KnockedOut every
event — Update included — leaves the machine unchanged. -/
theorem transition_no_op :
    (∀ (m : Machine) (e : Event), enumeratedPair m.tag e = false →
      m.transition e = m)
  ∧ (∀ (c : RedHatBoyContext) (e : Event),
      (Machine.knockedOut c).transition e = .knockedOut c) := by
  constructor
  · intro m e h
    cases m <;> cases e <;>
      first
        | rfl
        | (exact absurd h (by simp [Machine.tag, enumeratedPair]))
  · intro c e
    cases e <;> rfl

/-- Witness for C2: issuing Update to a KnockedOut machine — a pair absent
from the dispatch table — returns the machine unchanged. -/
theorem transition_no_op_applied :
    (Machine.knockedOut initialContext).transition .update
      = .knockedOut initialContext :=
  transition_no_op.1 (Machine.knockedOut initialContext) .update rfl

/-- Claim C4: starting from a context with vertical velocity 0, each
integration step adds exactly GRAVITY to `velocity.y` while it is below
TERMINAL_VELOCITY, leaves it unchanged once it equals TERMINAL_VELOCITY, and
so after k steps it equals `min k TERMINAL_VELOCITY`. -/
theorem gravity_until_terminal (fc : Nat) (c : RedHatBoyContext)
    (h0 : c.velocity.y = 0) :
    (∀ k, ((updateIter fc k c).velocity.y < TERMINAL_VELOCITY →
        (updateIter fc (k + 1) c).velocity.y
          = (updateIter fc k c).velocity.y + GRAVITY)
      ∧ ((updateIter fc k c).velocity.y = TERMINAL_VELOCITY →
        (updateIter fc (k + 1) c).velocity.y = TERMINAL_VELOCITY))
  ∧ (∀ k, (updateIter fc k c).velocity.y = min (k : Int) TERMINAL_VELOCITY) := by
  constructor
  · intro k
    constructor
    · intro hlt
      show ((updateIter fc k c).update fc).velocity.y = _
      rw [update_velocity_y, if_pos hlt]
    · intro heq
      show ((updateIter fc k c).update fc).velocity.y = _
      rw [update_velocity_y, heq]
      simp [TERMINAL_VELOCITY, GRAVITY]
  · intro k
    induction k with
    | zero => simpa [updateIter, TERMINAL_VELOCITY] using h0
    | succ k ih =>
      show ((updateIter fc k c).update fc).velocity.y = _
      rw [update_velocity_y, ih]
      simp only [TERMINAL_VELOCITY, GRAVITY] at *
      push_cast
      split_ifs <;> omega

/-- Witness for C4: from the initial context (vertical velocity 0), one
integration step yields velocity `min 1 TERMINAL_VELOCITY = 1`. -/
theorem gravity_until_terminal_applied :
    (updateIter 0 1 initialContext).velocity.y = min (1 : Int) TERMINAL_VELOCITY :=
  (gravity_until_terminal 0 initialContext rfl).2 1

/-- Claim C5: Jumping's Update auto-transitions to Running exactly when
`position.y` is at least FLOOR after integration — which, the integration
clamping to FLOOR, can only hold with equality — and the landed Running
context has frame 0 and `position.y = FLOOR` (landing via `land_on(HEIGHT)`
whose `set_on` subtracts `PLAYER_HEIGHT = HEIGHT - FLOOR`). -/
theorem jumping_lands_exactly_at_floor (c : RedHatBoyContext) :
    ((∃ r, jumpingUpdate c = .landing r) ↔
      (c.update JUMPING_FRAMES).position.y = FLOOR)
  ∧ (∀ r, jumpingUpdate c = .landing r →
      r.frame = 0 ∧ r.position.y = FLOOR) := by
  have hle := update_position_y_le c JUMPING_FRAMES
  unfold jumpingUpdate
  by_cases hge : (c.update JUMPING_FRAMES).position.y ≥ FLOOR
  · rw [if_pos hge]
    refine ⟨⟨fun _ => le_antisymm hle hge, fun _ => ⟨_, rfl⟩⟩, ?_⟩
    intro r hr
    cases hr
    refine ⟨rfl, ?_⟩
    show HEIGHT - PLAYER_HEIGHT = FLOOR
    simp [HEIGHT, PLAYER_HEIGHT, FLOOR]
  · rw [if_neg hge]
    constructor
    · constructor
      · rintro ⟨r, hr⟩
        cases hr
      · intro h
        exact absurd (le_of_eq h.symm) hge
    · intro r hr
      cases hr

/-- Witness for C5: a jumping context resting at the floor with terminal
vertical velocity lands in one Update, at frame 0 and exactly on the floor. -/
theorem jumping_lands_exactly_at_floor_applied :
    jumpingUpdate ⟨0, ⟨0, 479⟩, ⟨0, 20⟩⟩ = .landing ⟨0, ⟨0, 479⟩, ⟨0, 20⟩⟩
  ∧ (RedHatBoyContext.mk 0 ⟨0, 479⟩ ⟨0, 20⟩).frame = 0
  ∧ (RedHatBoyContext.mk 0 ⟨0, 479⟩ ⟨0, 20⟩).position.y = FLOOR := by
  have h := (jumping_lands_exactly_at_floor ⟨0, ⟨0, 479⟩, ⟨0, 20⟩⟩).2
    ⟨0, ⟨0, 479⟩, ⟨0, 20⟩⟩ (by decide)
  exact ⟨by decide, h.1, h.2⟩

/-- Claim C1: for an intersecting platform sub-box, the per-tick collision
resolution issues `Land(sub_box.y)` exactly when the character's vertical
velocity is strictly positive and its y position is strictly above the
platform's reference y, and issues `KnockOut` in every other intersecting
case; the issued event is then fed to the state machine. -/
theorem collision_land_iff (boyBB : Machine → Rect) (platY : Int)
    (m : Machine) (box : Rect)
    (hint : (boyBB m).intersects box) :
    (collisionEvent (boyBB m) m.context.velocity.y m.context.position.y platY
        box = some (.land box.y)
      ↔ (m.context.velocity.y > 0 ∧ m.context.position.y < platY))
  ∧ (¬(m.context.velocity.y > 0 ∧ m.context.position.y < platY) →
      collisionEvent (boyBB m) m.context.velocity.y m.context.position.y platY
        box = some .knockOut)
  ∧ (∀ e, collisionEvent (boyBB m) m.context.velocity.y m.context.position.y
        platY box = some e →
      collideStep boyBB platY m box = m.transition e) := by
  unfold collisionEvent
  rw [if_pos hint]
  refine ⟨?_, ?_, ?_⟩
  · by_cases hc : m.context.velocity.y > 0 ∧ m.context.position.y < platY
    · rw [if_pos hc]
      simp [hc]
    · rw [if_neg hc]
      simp [hc]
  · intro hc
    rw [if_neg hc]
  · intro e he
    unfold collideStep collisionEvent
    rw [if_pos hint]
    split_ifs at he ⊢ <;> cases he <;> rfl

/-- Witness for C1: the idle boy (vertical velocity 0) overlapping a sub-box
is knocked out rather than landed. -/
theorem collision_land_iff_applied :
    collisionEvent ((fun _ => (⟨0, 0, 10, 10⟩ : Rect)) initialMachine)
        initialMachine.context.velocity.y initialMachine.context.position.y
        500 ⟨5, 5, 10, 10⟩ = some .knockOut :=
  (collision_land_iff (fun _ => ⟨0, 0, 10, 10⟩) 500 initialMachine
    ⟨5, 5, 10, 10⟩ (by decide)).2.1 (by decide)

/-- Claim C7 counterexample: when both layers have wrapped past the left edge
in the same tick, the two orders of the wrap checks give different final
positions, so the wrap is not order-independent in general. -/
theorem wrap_order_dependent_cex :
    wrapPair ⟨⟨-20, 0⟩, 10⟩ ⟨⟨-15, 0⟩, 10⟩
      ≠ wrapPairRev ⟨⟨-20, 0⟩, 10⟩ ⟨⟨-15, 0⟩, 10⟩ := by decide

/-- Claim C7 (amended): provided at most one of the two layers has
`right() < 0` — the only situation a tick's small scroll step can produce —
the two wrap checks commute: program order and the opposite order give the
same final positions, and the wrapped layer's new x equals the other layer's
`right()` exactly. -/
theorem wrap_order_independent (fb sb : BgImage)
    (h : ¬(fb.right < 0 ∧ sb.right < 0)) :
    wrapPair fb sb = wrapPairRev fb sb
  ∧ (fb.right < 0 → (wrapPair fb sb).1.position.x = sb.right)
  ∧ (sb.right < 0 → (wrapPair fb sb).2.position.x = fb.right) := by
  rcases not_and_or.mp h with h1 | h2
  · refine ⟨?_, fun hf => absurd hf h1, ?_⟩
    · simp only [wrapPair, wrapPairRev, if_neg h1]
    · intro hs
      simp only [wrapPair, if_neg h1, if_pos hs, BgImage.setX]
  · refine ⟨?_, ?_, fun hs => absurd hs h2⟩
    · simp only [wrapPair, wrapPairRev, if_neg h2]
    · intro hf
      simp only [wrapPair, if_pos hf, if_neg h2, BgImage.setX]

/-- Witness for C7: with neither layer past the left edge, both orders leave
the layers in place. -/
theorem wrap_order_independent_applied :
    wrapPair ⟨⟨0, 0⟩, 10⟩ ⟨⟨10, 0⟩, 10⟩
      = wrapPairRev ⟨⟨0, 0⟩, 10⟩ ⟨⟨10, 0⟩, 10⟩ :=
  (wrap_order_independent ⟨⟨0, 0⟩, 10⟩ ⟨⟨10, 0⟩, 10⟩ (by decide)).1

/-- Claim C9: initialize called while already Loaded returns the distinct
already-initialized error (never an asset failure, never a new world), and a
successful initialize can only start from the Loading state. -/
theorem initialize_only_from_loading :
    (∀ (w : Walk) (r : LoadResults),
      initializeGame (.loaded w) r = .error .alreadyInitialized)
  ∧ (∀ (g : WalkTheDogS) (r : LoadResults) (g' : WalkTheDogS),
      initializeGame g r = .ok g' → g = .loading)
  ∧ (∀ msg, GameErr.alreadyInitialized ≠ GameErr.assetFailure msg) := by
  refine ⟨fun w r => rfl, ?_, fun msg h => by cases h⟩
  intro g r g' h
  cases g with
  | loading => rfl
  | loaded w => cases h

/-- Witness for C9: with every asset load succeeding, initialize from Loading
succeeds (producing the constructed world), and applying the theorem to that
run confirms the starting state was Loading; on the already-loaded result a
second initialize is rejected. -/
theorem initialize_only_from_loading_applied :
    (initializeGame .loading
        ⟨.ok ⟨[]⟩, .ok ⟨0, 0, 0, 0, 0, 0⟩, .ok ⟨1⟩, .ok ⟨2⟩, .ok ⟨3⟩, .ok ⟨4⟩⟩
      = .ok (.loaded
        ⟨⟨initialMachine, ⟨[]⟩, ⟨4⟩⟩,
          (⟨⟨0, 0⟩, 2⟩, ⟨⟨2, 0⟩, 2⟩),
          ⟨⟨150, 546⟩, 3⟩,
          ⟨⟨370, 420⟩, ⟨0, 0, 0, 0, 0, 0⟩, ⟨1⟩⟩⟩))
  ∧ WalkTheDogS.loading = WalkTheDogS.loading := by
  refine ⟨by rfl, ?_⟩
  exact initialize_only_from_loading.2.1 .loading
    ⟨.ok ⟨[]⟩, .ok ⟨0, 0, 0, 0, 0, 0⟩, .ok ⟨1⟩, .ok ⟨2⟩, .ok ⟨3⟩, .ok ⟨4⟩⟩
    _ (by rfl)

/-! Invariant helpers for the reachable-state claims. -/

theorem set_on_position_le (c : RedHatBoyContext) (p : Int) (hp : p ≤ HEIGHT) :
    (c.set_on p).position.y ≤ FLOOR := by
  simp only [RedHatBoyContext.set_on, PLAYER_HEIGHT, HEIGHT, FLOOR] at *
  omega

theorem slidingUpdate_inv (c : RedHatBoyContext)
    (h1 : c.velocity.y ≤ TERMINAL_VELOCITY) :
    (fromSliding (slidingUpdate c)).context.velocity.y ≤ TERMINAL_VELOCITY
  ∧ (fromSliding (slidingUpdate c)).context.position.y ≤ FLOOR := by
  simp only [slidingUpdate]
  split
  · exact ⟨update_velocity_y_le c SLIDING_FRAMES h1,
      update_position_y_le c SLIDING_FRAMES⟩
  · exact ⟨update_velocity_y_le c SLIDING_FRAMES h1,
      update_position_y_le c SLIDING_FRAMES⟩

theorem jumpingUpdate_inv (c : RedHatBoyContext)
    (h1 : c.velocity.y ≤ TERMINAL_VELOCITY) :
    (fromJumping (jumpingUpdate c)).context.velocity.y ≤ TERMINAL_VELOCITY
  ∧ (fromJumping (jumpingUpdate c)).context.position.y ≤ FLOOR := by
  simp only [jumpingUpdate]
  split
  · exact ⟨update_velocity_y_le c JUMPING_FRAMES h1,
      set_on_position_le _ HEIGHT le_rfl⟩
  · exact ⟨update_velocity_y_le c JUMPING_FRAMES h1,
      update_position_y_le c JUMPING_FRAMES⟩

theorem fallingUpdate_inv (c : RedHatBoyContext)
    (h1 : c.velocity.y ≤ TERMINAL_VELOCITY) :
    (fromFalling (fallingUpdate c)).context.velocity.y ≤ TERMINAL_VELOCITY
  ∧ (fromFalling (fallingUpdate c)).context.position.y ≤ FLOOR := by
  simp only [fallingUpdate]
  split
  · exact ⟨update_velocity_y_le c FALLING_FRAMES h1,
      update_position_y_le c FALLING_FRAMES⟩
  · exact ⟨update_velocity_y_le c FALLING_FRAMES h1,
      update_position_y_le c FALLING_FRAMES⟩

/-- Claim C3 counterexample: the event sequence Run, Land(700) is a sequence
of transition events from the initial Idle state, yet it leaves the character
at `position.y = 700 - PLAYER_HEIGHT = 579 > FLOOR`: `land_on` does not
preserve the floor bound for arbitrary Land payloads. -/
theorem floor_invariant_fails_cex :
    Reachable ((initialMachine.transition .run).transition (.land 700))
  ∧ ¬(((initialMachine.transition .run).transition
        (.land 700)).context.position.y ≤ FLOOR) :=
  ⟨Reachable.step (.land 700) (Reachable.step .run Reachable.init), by decide⟩

/-- Claim C3 (amended): for every state reachable from the initial Idle state
by a sequence of transition events in which every Land(p) payload satisfies
`p ≤ HEIGHT` — the only payloads the world loop issues — the context satisfies
`velocity.y ≤ TERMINAL_VELOCITY` and `position.y ≤ FLOOR`; every transition
with such events preserves the invariant. -/
theorem invariant_reachable (m : Machine) (h : ReachableOk m) :
    m.context.velocity.y ≤ TERMINAL_VELOCITY
  ∧ m.context.position.y ≤ FLOOR := by
  induction h with
  | init => exact ⟨by decide, by decide⟩
  | @step m' e hok hr ih =>
    obtain ⟨h1, h2⟩ := ih
    cases m' with
    | idle c =>
      cases e with
      | run => exact ⟨h1, h2⟩
      | slide => exact ⟨h1, h2⟩
      | update => exact ⟨update_velocity_y_le c IDLE_FRAMES h1,
          update_position_y_le c IDLE_FRAMES⟩
      | jump => exact ⟨h1, h2⟩
      | knockOut => exact ⟨h1, h2⟩
      | land p => exact ⟨h1, h2⟩
    | running c =>
      cases e with
      | run => exact ⟨h1, h2⟩
      | slide => exact ⟨h1, h2⟩
      | update => exact ⟨update_velocity_y_le c RUNNING_FRAMES h1,
          update_position_y_le c RUNNING_FRAMES⟩
      | jump => exact ⟨(by decide : JUMP_SPEED ≤ TERMINAL_VELOCITY), h2⟩
      | knockOut => exact ⟨(by decide : (0 : Int) ≤ TERMINAL_VELOCITY), h2⟩
      | land p => exact ⟨h1, set_on_position_le c p hok⟩
    | sliding c =>
      cases e with
      | run => exact ⟨h1, h2⟩
      | slide => exact ⟨h1, h2⟩
      | update => exact slidingUpdate_inv c h1
      | jump => exact ⟨h1, h2⟩
      | knockOut => exact ⟨(by decide : (0 : Int) ≤ TERMINAL_VELOCITY), h2⟩
      | land p => exact ⟨h1, set_on_position_le c p hok⟩
    | jumping c =>
      cases e with
      | run => exact ⟨h1, h2⟩
      | slide => exact ⟨h1, h2⟩
      | update => exact jumpingUpdate_inv c h1
      | jump => exact ⟨h1, h2⟩
      | knockOut => exact ⟨(by decide : (0 : Int) ≤ TERMINAL_VELOCITY), h2⟩
      | land p => exact ⟨h1, set_on_position_le c.reset_frame p hok⟩
    | falling c =>
      cases e with
      | run => exact ⟨h1, h2⟩
      | slide => exact ⟨h1, h2⟩
      | update => exact fallingUpdate_inv c h1
      | jump => exact ⟨h1, h2⟩
      | knockOut => exact ⟨h1, h2⟩
      | land p => exact ⟨h1, h2⟩
    | knockedOut c => cases e <;> exact ⟨h1, h2⟩

/-- Witness for C3 (amended): the initial machine itself satisfies both
bounds. -/
theorem invariant_reachable_applied :
    initialMachine.context.velocity.y ≤ TERMINAL_VELOCITY
  ∧ initialMachine.context.position.y ≤ FLOOR :=
  invariant_reachable initialMachine ReachableOk.init

/-! Lemmas for the jump round trip (repeated Jumping updates until landing). -/

theorem jumpingUpdate_eq (c : RedHatBoyContext) :
    jumpingUpdate c =
      if (c.update JUMPING_FRAMES).position.y ≥ FLOOR
      then .landing (jumpingLandOn (c.update JUMPING_FRAMES) HEIGHT)
      else .jumping (c.update JUMPING_FRAMES) := rfl

theorem jumpingUpdate_vx_landing {c r : RedHatBoyContext}
    (h : jumpingUpdate c = .landing r) : r.velocity.x = c.velocity.x := by
  rw [jumpingUpdate_eq] at h
  split at h
  · cases h
    exact update_velocity_x c JUMPING_FRAMES
  · cases h

theorem jumpingUpdate_vx_airborne {c c' : RedHatBoyContext}
    (h : jumpingUpdate c = .jumping c') : c'.velocity.x = c.velocity.x := by
  rw [jumpingUpdate_eq] at h
  split at h
  · cases h
  · cases h
    exact update_velocity_x c JUMPING_FRAMES

theorem jumpingUpdate_landing_of_ge {c : RedHatBoyContext}
    (h : (c.update JUMPING_FRAMES).position.y ≥ FLOOR) :
    jumpingUpdate c
      = .landing (jumpingLandOn (c.update JUMPING_FRAMES) HEIGHT) := by
  rw [jumpingUpdate_eq, if_pos h]

theorem jrun_vx_landing :
    ∀ (n : Nat) {c r : RedHatBoyContext}, jrun n c = .landing r →
      r.velocity.x = c.velocity.x := by
  intro n
  induction n with
  | zero => intro c r h; simp [jrun] at h
  | succ n ih =>
    intro c r h
    cases hj : jumpingUpdate c with
    | landing r' =>
      simp only [jrun, hj] at h
      cases h
      exact jumpingUpdate_vx_landing hj
    | jumping c' =>
      simp only [jrun, hj] at h
      rw [ih h, jumpingUpdate_vx_airborne hj]

theorem jrun_vx_airborne :
    ∀ (n : Nat) {c c' : RedHatBoyContext}, jrun n c = .jumping c' →
      c'.velocity.x = c.velocity.x := by
  intro n
  induction n with
  | zero =>
    intro c c' h
    simp only [jrun] at h
    cases h
    rfl
  | succ n ih =>
    intro c c' h
    cases hj : jumpingUpdate c with
    | landing r' =>
      simp only [jrun, hj] at h
      exact JumpingEndState.noConfusion h
    | jumping c1 =>
      simp only [jrun, hj] at h
      rw [ih h, jumpingUpdate_vx_airborne hj]

theorem jrun_append (k n : Nat) :
    ∀ {c c' : RedHatBoyContext}, jrun k c = .jumping c' →
      jrun (k + n) c = jrun n c' := by
  induction k with
  | zero =>
    intro c c' h
    simp only [jrun] at h
    cases h
    rw [Nat.zero_add]
  | succ k ih =>
    intro c c' h
    have hkn : k + 1 + n = (k + n) + 1 := by omega
    rw [hkn]
    cases hj : jumpingUpdate c with
    | landing r =>
      simp only [jrun, hj] at h
      exact JumpingEndState.noConfusion h
    | jumping c1 =>
      simp only [jrun, hj] at h ⊢
      exact ih h

theorem jrun_climb (k : Nat) :
    ∀ c : RedHatBoyContext, c.velocity.y ≤ TERMINAL_VELOCITY →
      (∃ r, jrun k c = .landing r) ∨
      (∃ c', jrun k c = .jumping c' ∧
        c'.velocity.y = min (c.velocity.y + k) TERMINAL_VELOCITY) := by
  induction k with
  | zero =>
    intro c hc
    right
    refine ⟨c, rfl, ?_⟩
    simp only [TERMINAL_VELOCITY] at *
    push_cast
    omega
  | succ k ih =>
    intro c hc
    cases hj : jumpingUpdate c with
    | landing r => exact Or.inl ⟨r, by simp [jrun, hj]⟩
    | jumping c' =>
      have hvy : c'.velocity.y =
          if c.velocity.y < TERMINAL_VELOCITY then c.velocity.y + GRAVITY
          else c.velocity.y := by
        rw [jumpingUpdate_eq] at hj
        split at hj
        · cases hj
        · cases hj
          exact update_velocity_y c JUMPING_FRAMES
      have hle : c'.velocity.y ≤ TERMINAL_VELOCITY := by
        rw [hvy]
        simp only [TERMINAL_VELOCITY, GRAVITY] at *
        split_ifs <;> omega
      rcases ih c' hle with ⟨r, hr⟩ | ⟨c'', h1, h2⟩
      · exact Or.inl ⟨r, by simp [jrun, hj, hr]⟩
      · refine Or.inr ⟨c'', by simp [jrun, hj, h1], ?_⟩
        rw [h2, hvy]
        simp only [TERMINAL_VELOCITY, GRAVITY] at *
        push_cast
        split_ifs <;> omega

theorem jrun_descend (M : Nat) :
    ∀ c : RedHatBoyContext, c.velocity.y = TERMINAL_VELOCITY →
      (FLOOR - c.position.y).toNat ≤ M →
      ∃ n r, jrun n c = .landing r := by
  induction M with
  | zero =>
    intro c hv hm
    have hge : (c.update JUMPING_FRAMES).position.y ≥ FLOOR := by
      rw [update_position_y]
      simp only [FLOOR, TERMINAL_VELOCITY, GRAVITY] at *
      split_ifs <;> omega
    exact ⟨1, jumpingLandOn (c.update JUMPING_FRAMES) HEIGHT,
      by simp [jrun, jumpingUpdate_landing_of_ge hge]⟩
  | succ M ih =>
    intro c hv hm
    by_cases hge : (c.update JUMPING_FRAMES).position.y ≥ FLOOR
    · exact ⟨1, jumpingLandOn (c.update JUMPING_FRAMES) HEIGHT,
        by simp [jrun, jumpingUpdate_landing_of_ge hge]⟩
    · have hj : jumpingUpdate c = .jumping (c.update JUMPING_FRAMES) := by
        rw [jumpingUpdate_eq, if_neg hge]
      have hv' : (c.update JUMPING_FRAMES).velocity.y = TERMINAL_VELOCITY := by
        rw [update_velocity_y]
        simp only [TERMINAL_VELOCITY, GRAVITY] at *
        split_ifs <;> omega
      have hm' : (FLOOR - (c.update JUMPING_FRAMES).position.y).toNat ≤ M := by
        rw [update_position_y] at hge ⊢
        simp only [FLOOR, TERMINAL_VELOCITY, GRAVITY] at *
        split_ifs at hge ⊢ <;> omega
      obtain ⟨n, r, hnr⟩ := ih (c.update JUMPING_FRAMES) hv' hm'
      exact ⟨n + 1, r, by simp [jrun, hj, hnr]⟩

/-- Claim C6: from any Running context, applying Jump and then repeatedly
applying the Jumping Update lands after finitely many steps in a Running
state whose horizontal velocity equals the pre-jump horizontal velocity. -/
theorem jump_round_trip_preserves_vx (c : RedHatBoyContext) :
    ∃ n r, jrun n (runningJump c) = .landing r
      ∧ r.velocity.x = c.velocity.x := by
  have h0 : (runningJump c).velocity.y ≤ TERMINAL_VELOCITY :=
    (by decide : JUMP_SPEED ≤ TERMINAL_VELOCITY)
  rcases jrun_climb 45 (runningJump c) h0 with ⟨r, hr⟩ | ⟨c', h1, h2⟩
  · have hx := jrun_vx_landing 45 hr
    exact ⟨45, r, hr, hx⟩
  · have hv : c'.velocity.y = TERMINAL_VELOCITY := by
      rw [h2]
      have hjs : (runningJump c).velocity.y = JUMP_SPEED := rfl
      rw [hjs]
      decide
    obtain ⟨n, r, hnr⟩ :=
      jrun_descend (FLOOR - c'.position.y).toNat c' hv le_rfl
    refine ⟨45 + n, r, ?_, ?_⟩
    · rw [jrun_append 45 n h1]
      exact hnr
    · rw [jrun_vx_landing n hnr, jrun_vx_airborne 45 h1]
      rfl

end WalkDog
